import Mathlib

/-!
Shallow embedding of the `synceverything` extension-sync core:
the config locator, profile detector (`src/unnamed/part_000` — `utils.ts`)
and the `SyncEverything` class (`src/src/...`): snapshot capture,
snapshot application and the extension reconciler.

Effectful TypeScript is modelled by passing the environment explicitly:
file existence is a predicate `String → Bool`, reads/parses are
`String → Option α` (`none` = the call threw), UI answers are inputs,
and each function returns a value describing everything it did
(paths produced, actions attempted, progress reports) so that ordering
and error-handling claims are statable.
-/

namespace SyncEv

/-! ## JavaScript value conventions

TS `string | null | undefined` is `Option String`; `none` stands for both
`null` and `undefined` (the code never distinguishes them).  -/

/-- JS truthiness of a `string | null | undefined` value: `null`,
`undefined` and `""` are falsy. -/
def truthy : Option String → Bool
  | none => false
  | some s => s ≠ ""

/-- Template-literal interpolation `${v}`: `undefined` prints as the
string `"undefined"`. -/
def tsStr : Option String → String
  | none => "undefined"
  | some s => s

/-- JS `v || d`: the fallback fires on any falsy value. -/
def tsOr (v : Option String) (d : String) : String :=
  if truthy v then tsStr v else d

/-! ## Config locator (`getConfigPaths` / `findConfigFile`) -/

/-- `os.platform()` restricted to the three branches the code takes. -/
inductive Platform
  | win32
  | darwin
  | linuxOther
deriving DecidableEq, Repr

/-- The ambient process environment the locator reads. -/
structure Env where
  appdata : Option String
  userprofile : Option String
  home : Option String
  xdgConfigHome : Option String
  homedir : String
deriving DecidableEq, Repr

/-- Path separator chosen by the code: `"\\"` on win32, `"/"` otherwise. -/
def sep : Platform → String
  | .win32 => "\\"
  | _ => "/"

/-- The `baseFolder` expression used for profile-scoped paths and for
`getStoragePath`. -/
def baseFolder (pf : Platform) (env : Env) : String :=
  match pf with
  | .win32 => tsStr env.appdata
  | .darwin => tsStr env.home ++ "/Library/Application Support"
  | .linuxOther => tsStr env.home ++ "/.config"

/-- The profile-scoped candidate
`baseFolder + sep + appName + sep + "User" + sep + "profiles" + sep + profileId + sep + file`. -/
def profileScopedPath (pf : Platform) (env : Env) (appName profileId file : String) : String :=
  let s := sep pf
  baseFolder pf env ++ s ++ appName ++ s ++ "User" ++ s ++ "profiles" ++ s ++ profileId ++ s ++ file

/-- The platform-default candidates pushed by the `switch` in
`getConfigPaths`, in source order. -/
def defaultPaths (pf : Platform) (env : Env) (appName file : String) : List String :=
  match pf with
  | .win32 =>
      [tsStr env.appdata ++ "\\" ++ appName ++ "\\User\\" ++ file,
       tsStr env.userprofile ++ "\\AppData\\Roaming\\" ++ appName ++ "\\User\\" ++ file]
  | .darwin =>
      [tsStr env.home ++ "/Library/Application Support/" ++ appName ++ "/User/" ++ file,
       env.homedir ++ "/Library/Application Support/" ++ appName ++ "/User/" ++ file]
  | .linuxOther =>
      [tsStr env.home ++ "/.config/" ++ appName ++ "/User/" ++ file,
       tsOr env.xdgConfigHome (env.homedir ++ "/.config") ++ "/" ++ appName ++ "/User/" ++ file,
       env.homedir ++ "/.config/" ++ appName ++ "/User/" ++ file]

/-- `getConfigPaths`: the profile-scoped path is pushed first when
`profileId && profileId !== "__default__profile__"` (JS truthiness),
then the platform defaults. -/
def getConfigPaths (pf : Platform) (env : Env) (appName file : String)
    (profileId : Option String) : List String :=
  (if truthy profileId ∧ profileId ≠ some "__default__profile__" then
    [profileScopedPath pf env appName (tsStr profileId) file]
  else []) ++ defaultPaths pf env appName file

/-- `findConfigFile`: probes the candidates in order with `pathExists`
(modelled by `ex`) and returns the first that exists; `none` models the
thrown `FileSystemError.FileNotFound` when no candidate exists.
`Uri.file(path).fsPath` is modelled as the identity on the candidate. -/
def findConfigFile (pf : Platform) (env : Env) (appName file : String)
    (profileId : Option String) (ex : String → Bool) : Option String :=
  (getConfigPaths pf env appName file profileId).find? ex

/-- `getStoragePath`: fixed per-platform `storage.json` location. -/
def getStoragePath (pf : Platform) (env : Env) (appName : String) : String :=
  let s := sep pf
  baseFolder pf env ++ s ++ appName ++ s ++ "User" ++ s ++ "globalStorage" ++ s ++ "storage.json"

/-! ## Profile detector (`getActiveProfileInfo`) -/

/-- One record of `storage.userDataProfiles`; `name` is `Option` because
the field may be absent (`profile?.name` is then `undefined`). -/
structure UserDataProfile where
  location : String
  name : Option String
deriving DecidableEq, Repr

/-- The parsed `storage.json` shape the detector reads:
`profileAssociations.workspaces` (URI → profile id) and
`userDataProfiles`, both optional. -/
structure StorageJson where
  workspaces : Option (List (String × String))
  userDataProfiles : Option (List UserDataProfile)
deriving DecidableEq, Repr

/-- The detector's result `{id, name}`; every return site of the code
fills both fields with a string. -/
structure ProfileInfo where
  id : String
  name : String
deriving DecidableEq, Repr

/-- The default-profile sentinel `{id: "__default__profile__", name: "Default"}`. -/
def defaultProfileInfo : ProfileInfo :=
  { id := "__default__profile__", name := "Default" }

/-- JS property lookup `map[uri]` on the workspaces object: the first
binding for the key, `none` when absent. -/
def jsLookup (m : List (String × String)) (k : String) : Option String :=
  (m.find? (fun p => p.1 = k)).map (fun p => p.2)

/-- `getActiveProfileInfo`, with the file system and parser made explicit:
`exists_` is the `pathExists(storagePath)` probe, `parsed` is the result of
`readFile` + `JSON5.parse` (`none` = either threw, caught by the outer
`try`), `workspaceUri` is `workspace.workspaceFolders?.[0]?.uri.toString()`.
The guard `workspaceUri && storage.profileAssociations.workspaces[workspaceUri]`
tests JS truthiness of both. -/
def getActiveProfileInfo (exists_ : Bool) (parsed : Option StorageJson)
    (workspaceUri : Option String) : ProfileInfo :=
  if !exists_ then defaultProfileInfo
  else
    match parsed with
    | none => defaultProfileInfo
    | some storage =>
      match storage.workspaces with
      | none => defaultProfileInfo
      | some ws =>
        match workspaceUri with
        | none => defaultProfileInfo
        | some uri =>
          if uri = "" then defaultProfileInfo
          else
            match jsLookup ws uri with
            | none => defaultProfileInfo
            | some profileId =>
              if profileId = "" then defaultProfileInfo
              else
                let profile := (storage.userDataProfiles.getD []).find?
                  (fun p => p.location = profileId)
                { id := profileId,
                  name := tsOr (profile.bind (fun p => p.name)) profileId }

/-! ## Installed extension list (`getExtensions`) -/

/-- One entry of `vscode.extensions.all`: its identifier and the
`packageJSON.isBuiltin` flag. -/
structure Ext where
  id : String
  isBuiltin : Bool
deriving DecidableEq, Repr

/-- `getExtensions`: drop built-ins, take the ids, drop the ids in the
configured `synceverything.excludeExtensions` list. -/
def getExtensions (all : List Ext) (excludeList : List String) : List String :=
  ((all.filter (fun e => !e.isBuiltin)).map (fun e => e.id)).filter
    (fun id => !excludeList.contains id)

/-! ## Extension reconciler (`installExtensions`) -/

/-- `toInstall = remoteList.filter(id => !localSet.has(id))`; `Set.has`
on a set built from a list is list membership. -/
def computeToInstall (localList remoteList : List String) : List String :=
  remoteList.filter (fun id => !localList.contains id)

/-- `toDelete = localList.filter(id => !remoteSet.has(id))`. -/
def computeToDelete (localList remoteList : List String) : List String :=
  localList.filter (fun id => !remoteList.contains id)

/-- Which of the two extension commands an action runs. -/
inductive ActionKind
  | uninstall
  | install
deriving DecidableEq, Repr

/-- The user's pick at the modal `showWarningMessage` confirmation
(`dismissed` = the dialog returned `undefined`). -/
inductive ConfirmAnswer
  | yes
  | showDetails
  | cancel
  | dismissed
deriving DecidableEq, Repr

/-- The user's pick at the final reload prompt. -/
inductive ReloadAnswer
  | reload
  | later
  | dismissed
deriving DecidableEq, Repr

/-- One iteration of the per-extension loops: the action attempted, the
`increment` passed to `progress.report` just before `executeCommand`,
and whether the `executeCommand` succeeded (`ok = false` = it threw and
the `catch` logged the failure). -/
structure Step where
  kind : ActionKind
  id : String
  increment : ℚ
  ok : Bool
deriving DecidableEq, Repr

/-- The body of one `for` loop over `ids`: `completed` is pre-incremented
before each report, so the step for the `i`-th id (0-based, after
`c` earlier actions) reports `increment = ((c + i + 1) / total) * 100`.
A thrown `executeCommand` is caught and logged; the loop continues. -/
def runActions (fails : ActionKind → String → Bool) (total : ℕ) :
    ActionKind → List String → ℕ → List Step
  | _, [], _ => []
  | k, id :: rest, completed =>
    let c := completed + 1
    { kind := k, id := id,
      increment := ((c : ℚ) / (total : ℚ)) * 100,
      ok := !fails k id } :: runActions fails total k rest c

/-- What one `installExtensions` call did.  `alreadyInSync` is the
short-circuit that shows "Extensions are already in sync" and returns
before the confirmation block; `detailsAborted` is the "Show Details"
branch, which shows the two identifier lists and returns; `cancelled` is
`action !== "Yes"`; `completed` carries the executed steps in order,
whether the reload prompt was shown (`needsReload`), and whether
`workbench.action.reloadWindow` ran. -/
inductive SyncResult
  | alreadyInSync
  | detailsAborted (toInstall toDelete : List String)
  | cancelled
  | completed (steps : List Step) (reloadPrompted reloaded : Bool)
deriving DecidableEq, Repr

/-- The install/uninstall commands a result issued, in execution order;
empty on every non-`completed` path. -/
def SyncResult.commands : SyncResult → List (ActionKind × String)
  | .completed steps _ _ => steps.map (fun s => (s.kind, s.id))
  | _ => []

/-- The `increment` values a result passed to `progress.report`, in
order; empty on every non-`completed` path. -/
def SyncResult.increments : SyncResult → List ℚ
  | .completed steps _ _ => steps.map (fun s => s.increment)
  | _ => []

/-- `installExtensions` with the local list already computed (the code
computes it as `this.getExtensions()`; see `installExtensions` below).
`confirmBeforeSync` is the `synceverything.confirmBeforeSync` setting,
`answer` the confirmation pick, `fails` tells which `executeCommand`
calls throw, `reloadAnswer` the final prompt's pick. -/
def installExtensionsFrom (localList remoteList : List String)
    (confirmBeforeSync : Bool) (answer : ConfirmAnswer)
    (fails : ActionKind → String → Bool) (reloadAnswer : ReloadAnswer) :
    SyncResult :=
  let toInstall := computeToInstall localList remoteList
  let toDelete := computeToDelete localList remoteList
  if toInstall.length = 0 ∧ toDelete.length = 0 then
    .alreadyInSync
  else if confirmBeforeSync ∧ answer = .showDetails then
    .detailsAborted toInstall toDelete
  else if confirmBeforeSync ∧ answer ≠ .yes then
    .cancelled
  else
    let total := toInstall.length + toDelete.length
    let steps := runActions fails total .uninstall toDelete 0 ++
      runActions fails total .install toInstall toDelete.length
    let needsReload := steps.any (fun s => s.ok)
    .completed steps needsReload (needsReload ∧ reloadAnswer = .reload)

/-- `installExtensions(remoteList)` as written: the local list is
`this.getExtensions()`. -/
def installExtensions (all : List Ext) (excludeList remoteList : List String)
    (confirmBeforeSync : Bool) (answer : ConfirmAnswer)
    (fails : ActionKind → String → Bool) (reloadAnswer : ReloadAnswer) :
    SyncResult :=
  installExtensionsFrom (getExtensions all excludeList) remoteList
    confirmBeforeSync answer fails reloadAnswer

/-! ## Local profile reader (`readConfigFile` / `getActiveProfile`) -/

/-- The path `readConfigFile` reads from: the `manual…Path` stored in
`globalState` when truthy (`if (manualPath)`), otherwise the locator's
result (`none` = `findConfigFile` threw, caught, logged, method returns
`undefined`). -/
def resolveReadPath (manualPath locatorResult : Option String) : Option String :=
  if truthy manualPath then manualPath else locatorResult

/-- `readConfigFile`: resolve the path, then `readFile` + `JSON5.parse`
(modelled by `readParse`, `none` = either threw; the `catch` logs and
returns `undefined`). -/
def readConfigFile {T : Type} (manualPath locatorResult : Option String)
    (readParse : String → Option T) : Option T :=
  match resolveReadPath manualPath locatorResult with
  | none => none
  | some p => readParse p

/-- The object `getActiveProfile` returns.  `settings` and `keybindings`
are `Option` because the `!` in
`(await this.readConfigFile(...))!` is a compile-time assertion only: at
run time a failed read leaves the field `undefined` in the returned
object. -/
structure CapturedProfile (S K : Type) where
  settings : Option S
  extensions : List String
  keybindings : Option K
  sourceAppName : String
  sourceProfileId : Option String
  sourceProfileName : Option String
deriving Repr

/-- `getActiveProfile`: read both config files (each through its manual
override / locator / parse pipeline), take the installed extension list,
and return the snapshot object unconditionally. -/
def getActiveProfile {S K : Type} (manualS manualK locS locK : Option String)
    (readParseS : String → Option S) (readParseK : String → Option K)
    (exts : List String) (appName : String)
    (profileId profileName : Option String) : CapturedProfile S K :=
  { settings := readConfigFile manualS locS readParseS,
    extensions := exts,
    keybindings := readConfigFile manualK locK readParseK,
    sourceAppName := appName,
    sourceProfileId := profileId,
    sourceProfileName := profileName }

/-- Modelled from the spec (not the code), for comparison with
`getActiveProfile`: the spec's capture contract says a read failure of
either config file abandons the capture and returns no snapshot, so this
variant returns `none` when either read pipeline fails. -/
def getActiveProfileSpec {S K : Type} (manualS manualK locS locK : Option String)
    (readParseS : String → Option S) (readParseK : String → Option K)
    (exts : List String) (appName : String)
    (profileId profileName : Option String) : Option (CapturedProfile S K) :=
  match readConfigFile manualS locS readParseS,
      readConfigFile manualK locK readParseK with
  | some s, some k =>
      some { settings := some s, extensions := exts, keybindings := some k,
             sourceAppName := appName, sourceProfileId := profileId,
             sourceProfileName := profileName }
  | _, _ => none

/-! ## Local profile writer (`updateLocalProfile`) -/

/-- What one `updateLocalProfile` call did.  `notFound file writes`
models the `FileSystemError.FileNotFound` thrown by `findConfigFile`
for `file` after the writes in `writes` already happened;
`writeFailed path writes` a rethrown `writeConfigFile` failure; `ok`
carries both writes and the reconciler's result. -/
inductive UpdateResult
  | notFound (file : String) (writes : List String)
  | writeFailed (path : String) (writes : List String)
  | ok (writes : List String) (sync : SyncResult)
deriving DecidableEq, Repr

/-- `updateLocalProfile`: resolves `settings.json` then `keybindings.json`
via `findConfigFile` only (the manual override is never consulted), writes
each, then runs the reconciler on the profile's extension list.
`writeOk` tells which `workspace.fs.writeFile` calls succeed. -/
def updateLocalProfile (pf : Platform) (env : Env) (appName : String)
    (profileId : Option String) (ex : String → Bool) (writeOk : String → Bool)
    (all : List Ext) (excludeList remoteList : List String)
    (confirmBeforeSync : Bool) (answer : ConfirmAnswer)
    (fails : ActionKind → String → Bool) (reloadAnswer : ReloadAnswer) :
    UpdateResult :=
  match findConfigFile pf env appName "settings.json" profileId ex with
  | none => .notFound "settings.json" []
  | some settingsPath =>
    if !writeOk settingsPath then .writeFailed settingsPath []
    else
      match findConfigFile pf env appName "keybindings.json" profileId ex with
      | none => .notFound "keybindings.json" [settingsPath]
      | some keybindingsPath =>
        if !writeOk keybindingsPath then
          .writeFailed keybindingsPath [settingsPath]
        else
          .ok [settingsPath, keybindingsPath]
            (installExtensions all excludeList remoteList confirmBeforeSync
              answer fails reloadAnswer)

/-! ## Helper lemmas -/

/-- Membership in `toInstall` is membership in the remote list minus the
local list. -/
lemma mem_computeToInstall (L R : List String) (id : String) :
    id ∈ computeToInstall L R ↔ id ∈ R ∧ id ∉ L := by
  simp [computeToInstall]

/-- Membership in `toDelete` is membership in the local list minus the
remote list. -/
lemma mem_computeToDelete (L R : List String) (id : String) :
    id ∈ computeToDelete L R ↔ id ∈ L ∧ id ∉ R := by
  simp [computeToDelete]

/-- When the two lists are equal as sets, both differences are empty. -/
lemma differences_nil_of_set_eq (L R : List String)
    (h : ∀ id, id ∈ L ↔ id ∈ R) :
    computeToInstall L R = [] ∧ computeToDelete L R = [] := by
  constructor
  · exact List.filter_eq_nil_iff.mpr (fun id hid => by simp [(h id).mpr hid])
  · exact List.filter_eq_nil_iff.mpr (fun id hid => by simp [(h id).mp hid])

/-- The reconciler's short-circuit for equal sets: both differences are
empty, so the result is `alreadyInSync` whatever the confirmation setting
or the user's answer would have been. -/
lemma installExtensionsFrom_of_set_eq (L R : List String)
    (h : ∀ id, id ∈ L ↔ id ∈ R) (confirm : Bool) (answer : ConfirmAnswer)
    (fails : ActionKind → String → Bool) (ra : ReloadAnswer) :
    installExtensionsFrom L R confirm answer fails ra = .alreadyInSync := by
  obtain ⟨hI, hD⟩ := differences_nil_of_set_eq L R h
  unfold installExtensionsFrom
  simp [hI, hD]

/-- C1: the reconciler computes `toInstall = R − L` and `toDelete = L − R`
as set differences; when `L` and `R` are equal as sets it performs zero
install/uninstall actions, reports "already in sync" (the
`alreadyInSync` result is the branch that shows that message and returns
before the confirmation prompt), and this happens for every confirmation
setting and every possible answer, i.e. without prompting. -/
theorem reconcile_set_difference_and_inSync_shortCircuit (L R : List String) :
    (∀ id, id ∈ computeToInstall L R ↔ id ∈ R ∧ id ∉ L) ∧
    (∀ id, id ∈ computeToDelete L R ↔ id ∈ L ∧ id ∉ R) ∧
    ((∀ id, id ∈ L ↔ id ∈ R) →
      ∀ (confirm : Bool) (answer : ConfirmAnswer)
        (fails : ActionKind → String → Bool) (ra : ReloadAnswer),
        installExtensionsFrom L R confirm answer fails ra = .alreadyInSync ∧
        (installExtensionsFrom L R confirm answer fails ra).commands = []) := by
  refine ⟨mem_computeToInstall L R, mem_computeToDelete L R, fun h confirm answer fails ra => ?_⟩
  have hres := installExtensionsFrom_of_set_eq L R h confirm answer fails ra
  exact ⟨hres, by rw [hres]; rfl⟩

/-- C1 witness: local `["A", "B"]` and remote `["B", "A"]` are equal as
sets, and the reconciler answers `alreadyInSync` with no commands. -/
theorem reconcile_set_difference_and_inSync_shortCircuit_witness :
    installExtensionsFrom ["A", "B"] ["B", "A"] true ConfirmAnswer.yes
      (fun _ _ => false) ReloadAnswer.later = SyncResult.alreadyInSync ∧
    (installExtensionsFrom ["A", "B"] ["B", "A"] true ConfirmAnswer.yes
      (fun _ _ => false) ReloadAnswer.later).commands = [] :=
  (reconcile_set_difference_and_inSync_shortCircuit ["A", "B"] ["B", "A"]).2.2
    (by intro id; constructor <;> (intro h; simp at h; rcases h with h | h <;> simp [h]))
    true ConfirmAnswer.yes (fun _ _ => false) ReloadAnswer.later

/-- C4 counterexample: the profile id `""` is neither `null` nor the
default sentinel, yet `getConfigPaths` produces no profile-scoped
candidate at all (the guard `if (profileId && ...)` uses JS truthiness,
and `""` is falsy): the candidate list is exactly the platform defaults,
and the profile-scoped path is not in it, so it is not probed before
them. -/
theorem locator_profile_path_first_counterexample :
    (some "" ≠ (none : Option String)) ∧
    (some "" ≠ some "__default__profile__") ∧
    getConfigPaths Platform.linuxOther
        { appdata := none, userprofile := none, home := some "/h",
          xdgConfigHome := none, homedir := "/h" } "Code" "settings.json"
        (some "") =
      defaultPaths Platform.linuxOther
        { appdata := none, userprofile := none, home := some "/h",
          xdgConfigHome := none, homedir := "/h" } "Code" "settings.json" ∧
    profileScopedPath Platform.linuxOther
        { appdata := none, userprofile := none, home := some "/h",
          xdgConfigHome := none, homedir := "/h" } "Code" "" "settings.json" ∉
      getConfigPaths Platform.linuxOther
        { appdata := none, userprofile := none, home := some "/h",
          xdgConfigHome := none, homedir := "/h" } "Code" "settings.json"
        (some "") := by
  refine ⟨by simp, by simp, ?_, ?_⟩ <;> decide

/-- C4 (amended): for every profile id `p` that is non-null, non-empty
(the code's truthiness guard also drops `""`) and not the default
sentinel, the candidate list is exactly the profile-scoped path followed
by the platform defaults, and the locator probes in that order: it
returns the profile-scoped path whenever that path exists, and otherwise
the first existing platform default. -/
theorem locator_profile_path_first (pf : Platform) (env : Env)
    (app file p : String) (hp : p ≠ "") (hs : p ≠ "__default__profile__")
    (ex : String → Bool) :
    getConfigPaths pf env app file (some p) =
      profileScopedPath pf env app p file :: defaultPaths pf env app file ∧
    (ex (profileScopedPath pf env app p file) = true →
      findConfigFile pf env app file (some p) ex =
        some (profileScopedPath pf env app p file)) ∧
    (ex (profileScopedPath pf env app p file) = false →
      findConfigFile pf env app file (some p) ex =
        (defaultPaths pf env app file).find? ex) := by
  have hpaths : getConfigPaths pf env app file (some p) =
      profileScopedPath pf env app p file :: defaultPaths pf env app file := by
    unfold getConfigPaths
    rw [if_pos]
    · rfl
    · exact ⟨by simp [truthy, hp], by simp [hs]⟩
  refine ⟨hpaths, fun hex => ?_, fun hex => ?_⟩ <;>
    simp [findConfigFile, hpaths, List.find?_cons, hex]

/-- C4 witness: for the concrete profile id `"p1"` on the linux branch,
the candidate list starts with the profile-scoped path, and with an
existence probe accepting only that path the locator returns it. -/
theorem locator_profile_path_first_witness :
    getConfigPaths Platform.linuxOther
        { appdata := none, userprofile := none, home := some "/h",
          xdgConfigHome := none, homedir := "/h" } "Code" "settings.json"
        (some "p1") =
      "/h/.config/Code/User/profiles/p1/settings.json" ::
        defaultPaths Platform.linuxOther
          { appdata := none, userprofile := none, home := some "/h",
            xdgConfigHome := none, homedir := "/h" } "Code" "settings.json" ∧
    findConfigFile Platform.linuxOther
        { appdata := none, userprofile := none, home := some "/h",
          xdgConfigHome := none, homedir := "/h" } "Code" "settings.json"
        (some "p1")
        (fun q => q = "/h/.config/Code/User/profiles/p1/settings.json") =
      some "/h/.config/Code/User/profiles/p1/settings.json" := by
  have h := locator_profile_path_first Platform.linuxOther
    { appdata := none, userprofile := none, home := some "/h",
      xdgConfigHome := none, homedir := "/h" } "Code" "settings.json" "p1"
    (by decide) (by decide)
    (fun q => q = "/h/.config/Code/User/profiles/p1/settings.json")
  refine ⟨?_, ?_⟩
  · have h1 := h.1
    rw [h1]
    rfl
  · have h2 := h.2.1 (by decide)
    rw [h2]
    rfl

/-- C7: `getActiveProfileInfo` is total by construction (every throw
site of the code — `readFile`, `JSON5.parse` — is inside the `try` whose
`catch` returns the sentinel, so the model needs no error result), and
it returns the default sentinel `{id: "__default__profile__", name:
"Default"}` when the storage descriptor is absent, when reading/parsing
it fails, and on every no-association path: no `workspaces` mapping, no
workspace URI (or a falsy empty one), or a missing/falsy association
entry for the URI. -/
theorem detectActive_default_sentinel :
    (∀ (parsed : Option StorageJson) (uri : Option String),
      getActiveProfileInfo false parsed uri = defaultProfileInfo) ∧
    (∀ uri : Option String,
      getActiveProfileInfo true none uri = defaultProfileInfo) ∧
    (∀ st : StorageJson, st.workspaces = none →
      ∀ uri : Option String,
        getActiveProfileInfo true (some st) uri = defaultProfileInfo) ∧
    (∀ st : StorageJson,
      getActiveProfileInfo true (some st) none = defaultProfileInfo) ∧
    (∀ st : StorageJson,
      getActiveProfileInfo true (some st) (some "") = defaultProfileInfo) ∧
    (∀ (st : StorageJson) (ws : List (String × String)) (uri : String),
      st.workspaces = some ws →
      (jsLookup ws uri = none ∨ jsLookup ws uri = some "") →
      getActiveProfileInfo true (some st) (some uri) = defaultProfileInfo) := by
  refine ⟨fun parsed uri => rfl, fun uri => rfl, ?_, ?_, ?_, ?_⟩
  · intro st hws uri
    unfold getActiveProfileInfo
    simp [hws]
  · intro st
    unfold getActiveProfileInfo
    cases hws : st.workspaces <;> simp [hws]
  · intro st
    unfold getActiveProfileInfo
    cases hws : st.workspaces <;> simp [hws]
  · intro st ws uri hws hlk
    unfold getActiveProfileInfo
    rcases hlk with hlk | hlk <;>
      · by_cases huri : uri = "" <;> simp [hws, hlk, huri]

/-- C7 witness: concrete inputs for the absent-descriptor, parse-error,
no-workspaces and falsy-association paths. -/
theorem detectActive_default_sentinel_witness :
    getActiveProfileInfo false none none = defaultProfileInfo ∧
    getActiveProfileInfo true none (some "u") = defaultProfileInfo ∧
    getActiveProfileInfo true
      (some { workspaces := none, userDataProfiles := none }) (some "u") =
      defaultProfileInfo ∧
    getActiveProfileInfo true
      (some { workspaces := some [("v", "p1")], userDataProfiles := none })
      (some "u") = defaultProfileInfo :=
  ⟨detectActive_default_sentinel.1 none none,
   detectActive_default_sentinel.2.1 (some "u"),
   detectActive_default_sentinel.2.2.1
     { workspaces := none, userDataProfiles := none } rfl (some "u"),
   detectActive_default_sentinel.2.2.2.2.2
     { workspaces := some [("v", "p1")], userDataProfiles := none }
     [("v", "p1")] "u" rfl (Or.inl (by decide))⟩

/-- A phase attempts exactly one step per input id, in input order,
keeping each id with its kind. -/
lemma runActions_map_action (fails : ActionKind → String → Bool) (total : ℕ)
    (k : ActionKind) (ids : List String) (c : ℕ) :
    (runActions fails total k ids c).map (fun s => (s.kind, s.id)) =
      ids.map (fun id => (k, id)) := by
  induction ids generalizing c with
  | nil => rfl
  | cons id rest ih => simp [runActions, ih]

/-- A phase's step count equals its input count: no failure shortens it. -/
lemma runActions_length (fails : ActionKind → String → Bool) (total : ℕ)
    (k : ActionKind) (ids : List String) (c : ℕ) :
    (runActions fails total k ids c).length = ids.length := by
  induction ids generalizing c with
  | nil => rfl
  | cons id rest ih => simp [runActions, ih]

/-- A phase's successful steps are exactly the ids whose command does not
throw. -/
lemma runActions_countP_ok (fails : ActionKind → String → Bool) (total : ℕ)
    (k : ActionKind) (ids : List String) (c : ℕ) :
    (runActions fails total k ids c).countP (fun s => s.ok) =
      ids.countP (fun id => !fails k id) := by
  induction ids generalizing c with
  | nil => rfl
  | cons id rest ih =>
    simp only [runActions, List.countP_cons, ih]

/-- The increments a phase reports: the step after `c` earlier completed
actions reports `((c + i + 1) / total) * 100` for its 0-based position `i`. -/
lemma runActions_increments (fails : ActionKind → String → Bool) (total : ℕ)
    (k : ActionKind) (ids : List String) (c : ℕ) :
    (runActions fails total k ids c).map (fun s => s.increment) =
      (List.range ids.length).map
        (fun i => (((c + i + 1 : ℕ) : ℚ) / (total : ℚ)) * 100) := by
  induction ids generalizing c with
  | nil => rfl
  | cons id rest ih =>
    simp only [runActions, List.map_cons, List.length_cons, List.range_succ_eq_map,
      List.map_map, ih]
    refine List.cons_eq_cons.mpr ⟨by norm_num, ?_⟩
    apply List.map_congr_left
    intro i _
    simp only [Function.comp_apply]
    have harg : c + 1 + i + 1 = c + Nat.succ i + 1 := by omega
    rw [harg]

/-- On the proceed path (confirmation disabled, or answered "Yes"), the
reconciler runs the uninstall phase over `toDelete` from `completed = 0`,
then the install phase over `toInstall`, and returns `completed`. -/
lemma installExtensionsFrom_proceeds (L R : List String) (confirm : Bool)
    (answer : ConfirmAnswer) (fails : ActionKind → String → Bool)
    (ra : ReloadAnswer)
    (hproceed : confirm = false ∨ answer = ConfirmAnswer.yes)
    (hne : ¬(computeToInstall L R = [] ∧ computeToDelete L R = [])) :
    installExtensionsFrom L R confirm answer fails ra =
      .completed
        (runActions fails
            ((computeToInstall L R).length + (computeToDelete L R).length)
            .uninstall (computeToDelete L R) 0 ++
          runActions fails
            ((computeToInstall L R).length + (computeToDelete L R).length)
            .install (computeToInstall L R) (computeToDelete L R).length)
        ((runActions fails
            ((computeToInstall L R).length + (computeToDelete L R).length)
            .uninstall (computeToDelete L R) 0 ++
          runActions fails
            ((computeToInstall L R).length + (computeToDelete L R).length)
            .install (computeToInstall L R) (computeToDelete L R).length).any
          (fun s => s.ok))
        ((runActions fails
            ((computeToInstall L R).length + (computeToDelete L R).length)
            .uninstall (computeToDelete L R) 0 ++
          runActions fails
            ((computeToInstall L R).length + (computeToDelete L R).length)
            .install (computeToInstall L R) (computeToDelete L R).length).any
            (fun s => s.ok) ∧
          ra = ReloadAnswer.reload) := by
  unfold installExtensionsFrom
  rw [if_neg, if_neg, if_neg]
  · rcases hproceed with h | h <;> simp [h]
  · rcases hproceed with h | h <;> simp [h]
  · intro hlen
    exact hne ⟨List.length_eq_zero.mp hlen.1, List.length_eq_zero.mp hlen.2⟩

/-- C5: on any run that reaches the action loops, the command sequence is
exactly all uninstalls (over `toDelete`, in its order) followed by all
installs (over `toInstall`, in its order); and `toDelete` is an
order-preserving sublist of the local list while `toInstall` is one of
the remote list, so each phase follows its input list's order.  The
loops are sequential by construction (`runActions` is a fold over the
list). -/
theorem reconcile_uninstalls_before_installs (L R : List String)
    (confirm : Bool) (answer : ConfirmAnswer)
    (fails : ActionKind → String → Bool) (ra : ReloadAnswer)
    (hproceed : confirm = false ∨ answer = ConfirmAnswer.yes)
    (hne : ¬(computeToInstall L R = [] ∧ computeToDelete L R = [])) :
    (installExtensionsFrom L R confirm answer fails ra).commands =
      (computeToDelete L R).map (fun id => (ActionKind.uninstall, id)) ++
        (computeToInstall L R).map (fun id => (ActionKind.install, id)) ∧
    List.Sublist (computeToDelete L R) L ∧
    List.Sublist (computeToInstall L R) R := by
  refine ⟨?_, List.filter_sublist L, List.filter_sublist R⟩
  rw [installExtensionsFrom_proceeds L R confirm answer fails ra hproceed hne]
  simp only [SyncResult.commands, List.map_append, runActions_map_action]

/-- C5 witness: local `["A", "B"]`, remote `["B", "C"]` with confirmation
answered "Yes": the command list is `uninstall A` then `install C`. -/
theorem reconcile_uninstalls_before_installs_witness :
    (installExtensionsFrom ["A", "B"] ["B", "C"] true ConfirmAnswer.yes
      (fun _ _ => false) ReloadAnswer.later).commands =
      [(ActionKind.uninstall, "A"), (ActionKind.install, "C")] := by
  have h := (reconcile_uninstalls_before_installs ["A", "B"] ["B", "C"] true
    ConfirmAnswer.yes (fun _ _ => false) ReloadAnswer.later
    (Or.inr rfl) (by decide)).1
  rw [h]
  decide

/-- Counting helper: the steps that succeed are the length minus the ones
that fail. -/
lemma countP_ok_eq_sub (ids : List String) (f : String → Bool) :
    ids.countP (fun id => !f id) = ids.length - ids.countP f := by
  induction ids with
  | nil => rfl
  | cons id rest ih =>
    have hle : rest.countP f ≤ rest.length := List.countP_le_length f
    by_cases h : f id
    all_goals simp [List.countP_cons, h, ih]
    all_goals omega

/-- countP of failing actions over a tagged phase equals countP over the
ids. -/
lemma countP_map_action (ids : List String) (k : ActionKind)
    (fails : ActionKind → String → Bool) :
    (ids.map (fun id => (k, id))).countP (fun a => fails a.1 a.2) =
      ids.countP (fails k) := by
  rw [List.countP_map]
  rfl

/-- C6: on any run that reaches the action loops, every action in the
batch is attempted (the step list matches the action list one-for-one, in
order — a failing `executeCommand` is caught, logged via the `catch`
branch, and the loop continues), and when exactly one action fails the
other `N − 1` all succeed. -/
theorem reconcile_batch_failure_tolerant (L R : List String)
    (confirm : Bool) (answer : ConfirmAnswer)
    (fails : ActionKind → String → Bool) (ra : ReloadAnswer)
    (hproceed : confirm = false ∨ answer = ConfirmAnswer.yes)
    (hne : ¬(computeToInstall L R = [] ∧ computeToDelete L R = []))
    (hone :
      ((computeToDelete L R).map (fun id => (ActionKind.uninstall, id)) ++
        (computeToInstall L R).map
          (fun id => (ActionKind.install, id))).countP
        (fun a => fails a.1 a.2) = 1) :
    ∀ steps p r,
      installExtensionsFrom L R confirm answer fails ra =
        SyncResult.completed steps p r →
      steps.map (fun s => (s.kind, s.id)) =
        (computeToDelete L R).map (fun id => (ActionKind.uninstall, id)) ++
          (computeToInstall L R).map (fun id => (ActionKind.install, id)) ∧
      steps.length =
        (computeToDelete L R).length + (computeToInstall L R).length ∧
      steps.countP (fun s => s.ok) =
        (computeToDelete L R).length + (computeToInstall L R).length - 1 := by
  intro steps p r hrun
  rw [installExtensionsFrom_proceeds L R confirm answer fails ra hproceed hne]
    at hrun
  obtain ⟨hsteps, -, -⟩ := SyncResult.completed.inj hrun
  subst hsteps
  refine ⟨?_, ?_, ?_⟩
  · simp only [List.map_append, runActions_map_action]
  · simp only [List.length_append, runActions_length]
  · rw [List.countP_append, runActions_countP_ok, runActions_countP_ok,
      countP_ok_eq_sub, countP_ok_eq_sub]
    rw [List.countP_append, countP_map_action, countP_map_action] at hone
    have hd : (computeToDelete L R).countP (fails ActionKind.uninstall) ≤
        (computeToDelete L R).length := List.countP_le_length _
    have hi : (computeToInstall L R).countP (fails ActionKind.install) ≤
        (computeToInstall L R).length := List.countP_le_length _
    omega

/-- C6 witness: local `["A", "B"]`, remote `["B", "C"]`, confirmation
disabled, with the uninstall of `A` failing: both actions are attempted
and one of the two succeeds. -/
theorem reconcile_batch_failure_tolerant_witness :
    (installExtensionsFrom ["A", "B"] ["B", "C"] false ConfirmAnswer.dismissed
        (fun k _ => k = ActionKind.uninstall) ReloadAnswer.later).commands.length = 2 ∧
    ∃ steps p r,
      installExtensionsFrom ["A", "B"] ["B", "C"] false ConfirmAnswer.dismissed
        (fun k _ => k = ActionKind.uninstall) ReloadAnswer.later =
        SyncResult.completed steps p r ∧
      steps.length = 2 ∧ steps.countP (fun s => s.ok) = 1 := by
  have h := reconcile_batch_failure_tolerant ["A", "B"] ["B", "C"] false
    ConfirmAnswer.dismissed (fun k _ => k = ActionKind.uninstall)
    ReloadAnswer.later (Or.inl rfl) (by decide) (by decide)
  have hres := installExtensionsFrom_proceeds ["A", "B"] ["B", "C"] false
    ConfirmAnswer.dismissed (fun k _ => k = ActionKind.uninstall)
    ReloadAnswer.later (Or.inl rfl) (by decide)
  obtain ⟨hmap, hlen, hok⟩ := h _ _ _ hres
  refine ⟨?_, _, _, _, hres, hlen.trans (by decide), hok.trans (by decide)⟩
  have hcmd : (installExtensionsFrom ["A", "B"] ["B", "C"] false
      ConfirmAnswer.dismissed (fun k _ => k = ActionKind.uninstall)
      ReloadAnswer.later).commands =
      [(ActionKind.uninstall, "A"), (ActionKind.install, "C")] := by
    rw [hres]
    show (List.map _ _) = _
    rw [List.map_append, runActions_map_action, runActions_map_action]
    decide
  rw [hcmd]
  rfl

/-- C8: with confirmation enabled, the "Show Details" answer produces the
`detailsAborted` result carrying exactly the affected identifier lists
and issues no install/uninstall command; more generally every answer
other than "Yes" leaves the command list empty — no mutation happens on
any non-affirmative path. -/
theorem reconcile_nonaffirmative_no_mutation (L R : List String)
    (fails : ActionKind → String → Bool) (ra : ReloadAnswer) :
    (¬(computeToInstall L R = [] ∧ computeToDelete L R = []) →
      installExtensionsFrom L R true ConfirmAnswer.showDetails fails ra =
        SyncResult.detailsAborted (computeToInstall L R)
          (computeToDelete L R)) ∧
    (∀ answer : ConfirmAnswer, answer ≠ ConfirmAnswer.yes →
      (installExtensionsFrom L R true answer fails ra).commands = []) := by
  constructor
  · intro hne
    unfold installExtensionsFrom
    rw [if_neg, if_pos ⟨rfl, rfl⟩]
    intro hlen
    exact hne ⟨List.length_eq_zero.mp hlen.1, List.length_eq_zero.mp hlen.2⟩
  · intro answer hans
    unfold installExtensionsFrom
    by_cases hlen : (computeToInstall L R).length = 0 ∧
        (computeToDelete L R).length = 0
    · rw [if_pos hlen]; rfl
    · rw [if_neg hlen]
      by_cases hsd : answer = ConfirmAnswer.showDetails
      · rw [if_pos ⟨rfl, hsd⟩]; rfl
      · rw [if_neg (fun hc => hsd hc.2), if_pos ⟨rfl, hans⟩]; rfl

/-- C8 witness: local `["A"]`, remote `["B"]`: "Show Details" yields the
terminal detail view listing `toInstall = ["B"]`, `toDelete = ["A"]` with
no commands, and "Cancel" also issues no commands. -/
theorem reconcile_nonaffirmative_no_mutation_witness :
    installExtensionsFrom ["A"] ["B"] true ConfirmAnswer.showDetails
      (fun _ _ => false) ReloadAnswer.later =
      SyncResult.detailsAborted ["B"] ["A"] ∧
    (installExtensionsFrom ["A"] ["B"] true ConfirmAnswer.showDetails
      (fun _ _ => false) ReloadAnswer.later).commands = [] ∧
    (installExtensionsFrom ["A"] ["B"] true ConfirmAnswer.cancel
      (fun _ _ => false) ReloadAnswer.later).commands = [] := by
  have h := reconcile_nonaffirmative_no_mutation ["A"] ["B"]
    (fun _ _ => false) ReloadAnswer.later
  exact ⟨h.1 (by decide), h.2 ConfirmAnswer.showDetails (by decide),
    h.2 ConfirmAnswer.cancel (by decide)⟩

/-- Sum of `k + 1` over `k < n`, in `ℚ`: the Gauss sum. -/
lemma sum_range_succ_cast (n : ℕ) :
    ((List.range n).map (fun k : ℕ => ((k : ℚ) + 1))).sum =
      (n : ℚ) * ((n : ℚ) + 1) / 2 := by
  induction n with
  | zero => simp
  | succ m ih =>
    rw [List.range_succ, List.map_append, List.sum_append, ih]
    simp only [List.map_cons, List.map_nil, List.sum_cons, List.sum_nil]
    push_cast
    ring

/-- Pulling a constant factor out of a summed map. -/
lemma sum_map_mul_const (l : List ℕ) (g : ℕ → ℚ) (c : ℚ) :
    (l.map (fun x => g x * c)).sum = (l.map g).sum * c := by
  induction l with
  | nil => simp
  | cons x rest ih => simp [ih]; ring

/-- The `(k / T) * 100` increments for `k = 1, …, T` sum to
`100 * (T + 1) / 2`, not to `100`. -/
lemma increments_range_sum (T : ℕ) (hT : T ≠ 0) :
    ((List.range T).map
      (fun k => (((k + 1 : ℕ) : ℚ) / (T : ℚ)) * 100)).sum =
      100 * ((T : ℚ) + 1) / 2 := by
  have hfun : (fun k : ℕ => (((k + 1 : ℕ) : ℚ) / (T : ℚ)) * 100) =
      fun k : ℕ => (((k : ℚ) + 1 : ℚ)) * (100 / (T : ℚ)) := by
    funext k
    push_cast
    ring
  rw [hfun, sum_map_mul_const, sum_range_succ_cast]
  have hT' : (T : ℚ) ≠ 0 := Nat.cast_ne_zero.mpr hT
  field_simp
  ring

/-- C9 counterexample: with local `["a"]` and remote `["b"]` the batch
has `T = 2` affected extensions, but the reported increments are
`[50, 100]` — the second is not `100 / T = 50` — and they sum to `150`,
not `100` (the code passes the cumulative percentage
`(++completed / total) * 100` as each report's `increment`). -/
theorem progress_increments_counterexample :
    (installExtensionsFrom ["a"] ["b"] false ConfirmAnswer.dismissed
        (fun _ _ => false) ReloadAnswer.later).commands.length = 2 ∧
    (installExtensionsFrom ["a"] ["b"] false ConfirmAnswer.dismissed
        (fun _ _ => false) ReloadAnswer.later).increments = [50, 100] ∧
    ¬ (∀ q ∈ (installExtensionsFrom ["a"] ["b"] false ConfirmAnswer.dismissed
        (fun _ _ => false) ReloadAnswer.later).increments, q = 100 / 2) ∧
    (installExtensionsFrom ["a"] ["b"] false ConfirmAnswer.dismissed
        (fun _ _ => false) ReloadAnswer.later).increments.sum ≠ 100 := by
  have hres := installExtensionsFrom_proceeds ["a"] ["b"] false
    ConfirmAnswer.dismissed (fun _ _ => false) ReloadAnswer.later
    (Or.inl rfl) (by decide)
  have hD : computeToDelete ["a"] ["b"] = ["a"] := by decide
  have hI : computeToInstall ["a"] ["b"] = ["b"] := by decide
  have hinc : (installExtensionsFrom ["a"] ["b"] false ConfirmAnswer.dismissed
      (fun _ _ => false) ReloadAnswer.later).increments = [50, 100] := by
    rw [hres]
    show List.map _ _ = _
    rw [List.map_append, runActions_increments, runActions_increments,
      hD, hI]
    norm_num [List.range_succ]
  have hcmd : (installExtensionsFrom ["a"] ["b"] false ConfirmAnswer.dismissed
      (fun _ _ => false) ReloadAnswer.later).commands =
      [(ActionKind.uninstall, "a"), (ActionKind.install, "b")] := by
    rw [hres]
    show List.map _ _ = _
    rw [List.map_append, runActions_map_action, runActions_map_action,
      hD, hI]
    rfl
  refine ⟨by rw [hcmd]; rfl, hinc, ?_, ?_⟩
  · intro hall
    have := hall 100 (by rw [hinc]; simp)
    norm_num at this
  · rw [hinc]
    norm_num

/-- C9 (amended): progress is reported per action, but each report's
`increment` is the cumulative percentage `(k / T) * 100` for the `k`-th
of `T` actions (`completed` is pre-incremented), so the increments over
the whole batch sum to `100 * (T + 1) / 2` percent — `100` only when
`T = 1`, strictly more whenever `T ≥ 2`. -/
theorem progress_increments_cumulative (L R : List String)
    (confirm : Bool) (answer : ConfirmAnswer)
    (fails : ActionKind → String → Bool) (ra : ReloadAnswer)
    (hproceed : confirm = false ∨ answer = ConfirmAnswer.yes)
    (hne : ¬(computeToInstall L R = [] ∧ computeToDelete L R = [])) :
    (installExtensionsFrom L R confirm answer fails ra).increments =
      (List.range
          ((computeToDelete L R).length + (computeToInstall L R).length)).map
        (fun k => (((k + 1 : ℕ) : ℚ) /
          (((computeToDelete L R).length +
            (computeToInstall L R).length : ℕ) : ℚ)) * 100) ∧
    (installExtensionsFrom L R confirm answer fails ra).increments.sum =
      100 * ((((computeToDelete L R).length +
        (computeToInstall L R).length : ℕ) : ℚ) + 1) / 2 := by
  have hrun := installExtensionsFrom_proceeds L R confirm answer fails ra
    hproceed hne
  have hTcomm : (computeToInstall L R).length + (computeToDelete L R).length =
      (computeToDelete L R).length + (computeToInstall L R).length :=
    Nat.add_comm _ _
  have hmain : (installExtensionsFrom L R confirm answer fails ra).increments =
      (List.range
          ((computeToDelete L R).length + (computeToInstall L R).length)).map
        (fun k => (((k + 1 : ℕ) : ℚ) /
          (((computeToDelete L R).length +
            (computeToInstall L R).length : ℕ) : ℚ)) * 100) := by
    rw [hrun]
    show List.map _ _ = _
    rw [List.map_append, runActions_increments, runActions_increments, hTcomm,
      List.range_add, List.map_append, List.map_map]
    refine congrArg₂ (· ++ ·) ?_ ?_
    · apply List.map_congr_left
      intro i _
      have harg : 0 + i + 1 = i + 1 := by omega
      rw [harg]
    · apply List.map_congr_left
      intro i _
      simp only [Function.comp_apply]
  have hT0 : (computeToDelete L R).length + (computeToInstall L R).length ≠ 0 := by
    intro h0
    exact hne ⟨List.length_eq_zero.mp (by omega),
      List.length_eq_zero.mp (by omega)⟩
  exact ⟨hmain, by rw [hmain, increments_range_sum _ hT0]⟩

/-- C9 amended witness: local `["a"]`, remote `["b"]` gives `T = 2` and
the increments sum to `150 = 100 * (2 + 1) / 2`. -/
theorem progress_increments_cumulative_witness :
    (installExtensionsFrom ["a"] ["b"] false ConfirmAnswer.dismissed
        (fun _ _ => false) ReloadAnswer.later).increments.sum = 150 := by
  have h := (progress_increments_cumulative ["a"] ["b"] false
    ConfirmAnswer.dismissed (fun _ _ => false) ReloadAnswer.later
    (Or.inl rfl) (by decide)).2
  have hD : computeToDelete ["a"] ["b"] = ["a"] := by decide
  have hI : computeToInstall ["a"] ["b"] = ["b"] := by decide
  rw [hD, hI] at h
  refine h.trans ?_
  norm_num

/-- C3 counterexample: with `excludeExtensions = ["e"]`, extension `e`
installed locally and `e` in the remote list, the filtered local list is
empty, so `e` lands in `toInstall` and an install command for the
excluded identifier is issued: exclusion is not applied to the remote
side of the comparison. -/
theorem exclusions_omitted_counterexample :
    "e" ∈ ["e"] ∧
    getExtensions [{ id := "e", isBuiltin := false }] ["e"] = [] ∧
    computeToInstall
      (getExtensions [{ id := "e", isBuiltin := false }] ["e"]) ["e"] =
      ["e"] ∧
    (installExtensions [{ id := "e", isBuiltin := false }] ["e"] ["e"]
        false ConfirmAnswer.dismissed (fun _ _ => false)
        ReloadAnswer.later).commands = [(ActionKind.install, "e")] := by
  refine ⟨by decide, by decide, by decide, ?_⟩
  have hres := installExtensionsFrom_proceeds
    (getExtensions [{ id := "e", isBuiltin := false }] ["e"]) ["e"] false
    ConfirmAnswer.dismissed (fun _ _ => false) ReloadAnswer.later
    (Or.inl rfl) (by decide)
  show (installExtensionsFrom _ _ _ _ _ _).commands = _
  rw [hres]
  show List.map _ _ = _
  rw [List.map_append, runActions_map_action, runActions_map_action]
  decide

/-- A reconciler run either issues no commands (in-sync, detail view, or
declined confirmation) or issues exactly the uninstalls over `toDelete`
followed by the installs over `toInstall`. -/
lemma commands_cases (L R : List String) (confirm : Bool)
    (answer : ConfirmAnswer) (fails : ActionKind → String → Bool)
    (ra : ReloadAnswer) :
    (installExtensionsFrom L R confirm answer fails ra).commands = [] ∨
    (installExtensionsFrom L R confirm answer fails ra).commands =
      (computeToDelete L R).map (fun id => (ActionKind.uninstall, id)) ++
        (computeToInstall L R).map (fun id => (ActionKind.install, id)) := by
  unfold installExtensionsFrom
  by_cases h1 : (computeToInstall L R).length = 0 ∧
      (computeToDelete L R).length = 0
  · rw [if_pos h1]
    exact Or.inl rfl
  · rw [if_neg h1]
    by_cases h2 : confirm = true ∧ answer = ConfirmAnswer.showDetails
    · rw [if_pos h2]
      exact Or.inl rfl
    · rw [if_neg h2]
      by_cases h3 : confirm = true ∧ answer ≠ ConfirmAnswer.yes
      · rw [if_pos h3]
        exact Or.inl rfl
      · rw [if_neg h3]
        right
        show List.map _ _ = _
        rw [List.map_append, runActions_map_action, runActions_map_action]

/-- C3 (amended): an excluded identifier is omitted from the local side
only: it never appears in the filtered local list, hence never in
`toDelete` and never in an issued uninstall command; but because the
remote list is not filtered, an excluded identifier that occurs in the
remote list always appears in `toInstall` (the filtered local list
cannot contain it), regardless of whether it is locally installed, and
a run that reaches the loops (here: confirmation disabled) issues an
install command for it. -/
theorem exclusions_omitted_local_side_only (all : List Ext)
    (excl R : List String) (e : String) (he : e ∈ excl) :
    e ∉ getExtensions all excl ∧
    e ∉ computeToDelete (getExtensions all excl) R ∧
    (e ∈ R → e ∈ computeToInstall (getExtensions all excl) R) ∧
    (∀ (confirm : Bool) (answer : ConfirmAnswer)
        (fails : ActionKind → String → Bool) (ra : ReloadAnswer),
      (ActionKind.uninstall, e) ∉
        (installExtensions all excl R confirm answer fails ra).commands) ∧
    (∀ (answer : ConfirmAnswer) (fails : ActionKind → String → Bool)
        (ra : ReloadAnswer), e ∈ R →
      (ActionKind.install, e) ∈
        (installExtensions all excl R false answer fails ra).commands) := by
  have hloc : e ∉ getExtensions all excl := by
    intro hmem
    have := (List.mem_filter.mp hmem).2
    simp [he] at this
  have hdel : e ∉ computeToDelete (getExtensions all excl) R := by
    intro hmem
    exact hloc (List.mem_filter.mp hmem).1
  have hins : e ∈ R → e ∈ computeToInstall (getExtensions all excl) R :=
    fun hR => (mem_computeToInstall _ R e).mpr ⟨hR, hloc⟩
  refine ⟨hloc, hdel, hins, ?_, ?_⟩
  · intro confirm answer fails ra hmem
    have hmem' : (ActionKind.uninstall, e) ∈
        (installExtensionsFrom (getExtensions all excl) R confirm answer
          fails ra).commands := hmem
    rcases commands_cases (getExtensions all excl) R confirm answer fails ra
      with hcmd | hcmd <;> rw [hcmd] at hmem'
    · exact List.not_mem_nil _ hmem'
    · rcases List.mem_append.mp hmem' with hmm | hmm
      · obtain ⟨a, ha, hpair⟩ := List.mem_map.mp hmm
        have ha' : a = e := congrArg Prod.snd hpair
        exact hdel (ha' ▸ ha)
      · obtain ⟨a, ha, hpair⟩ := List.mem_map.mp hmm
        exact ActionKind.noConfusion (congrArg Prod.fst hpair)
  · intro answer fails ra hR
    have hne : ¬(computeToInstall (getExtensions all excl) R = [] ∧
        computeToDelete (getExtensions all excl) R = []) := by
      intro hemp
      rw [hemp.1] at hins
      exact List.not_mem_nil e (hins hR)
    rcases commands_cases (getExtensions all excl) R false answer fails ra
      with hcmd | hcmd
    · exfalso
      have hrun := installExtensionsFrom_proceeds (getExtensions all excl) R
        false answer fails ra (Or.inl rfl) hne
      rw [hrun] at hcmd
      simp only [SyncResult.commands, List.map_append,
        runActions_map_action] at hcmd
      obtain ⟨hd1, hd2⟩ := List.append_eq_nil.mp hcmd
      rw [List.map_eq_nil_iff] at hd1 hd2
      exact hne ⟨hd2, hd1⟩
    · show (ActionKind.install, e) ∈
        (installExtensionsFrom (getExtensions all excl) R false answer
          fails ra).commands
      rw [hcmd]
      exact List.mem_append.mpr (Or.inr
        (List.mem_map.mpr ⟨e, hins hR, rfl⟩))

/-- C3 amended witness: the concrete excluded identifier `"e"`, locally
installed and remotely listed, is absent from the local list and
`toDelete` but present in `toInstall`; the run issues an install
command and no uninstall command for it. -/
theorem exclusions_omitted_local_side_only_witness :
    "e" ∉ getExtensions [{ id := "e", isBuiltin := false }] ["e"] ∧
    "e" ∉ computeToDelete
      (getExtensions [{ id := "e", isBuiltin := false }] ["e"]) ["e"] ∧
    "e" ∈ computeToInstall
      (getExtensions [{ id := "e", isBuiltin := false }] ["e"]) ["e"] ∧
    (ActionKind.uninstall, "e") ∉
      (installExtensions [{ id := "e", isBuiltin := false }] ["e"] ["e"]
        false ConfirmAnswer.dismissed (fun _ _ => false)
        ReloadAnswer.later).commands ∧
    (ActionKind.install, "e") ∈
      (installExtensions [{ id := "e", isBuiltin := false }] ["e"] ["e"]
        false ConfirmAnswer.dismissed (fun _ _ => false)
        ReloadAnswer.later).commands := by
  have h := exclusions_omitted_local_side_only
    [{ id := "e", isBuiltin := false }] ["e"] ["e"] "e" (by decide)
  exact ⟨h.1, h.2.1, h.2.2.1 (by decide),
    h.2.2.2.1 false ConfirmAnswer.dismissed (fun _ _ => false)
      ReloadAnswer.later,
    h.2.2.2.2 ConfirmAnswer.dismissed (fun _ _ => false) ReloadAnswer.later
      (by decide)⟩

/-- C2 counterexample: when reading/parsing both config files fails
(`readParse` returns `none` at every path), the spec-modelled capture
returns no snapshot, but the code's `getActiveProfile` still returns a
snapshot object — with `settings` and `keybindings` left `undefined` —
because the `!` non-null assertions have no run-time effect: the capture
is not abandoned. -/
theorem capture_abandoned_on_read_failure_counterexample :
    getActiveProfileSpec (S := Unit) (K := Unit) none none (some "/cfg")
        (some "/cfg") (fun _ => none) (fun _ => none) ["x.y"] "Code"
        (some "__default__profile__") (some "Default") = none ∧
    getActiveProfile (S := Unit) (K := Unit) none none (some "/cfg")
        (some "/cfg") (fun _ => none) (fun _ => none) ["x.y"] "Code"
        (some "__default__profile__") (some "Default") =
      { settings := none, extensions := ["x.y"], keybindings := none,
        sourceAppName := "Code",
        sourceProfileId := some "__default__profile__",
        sourceProfileName := some "Default" } :=
  ⟨rfl, rfl⟩

/-- A failing read/parse pipeline makes `readConfigFile` return
`undefined`, whatever path was resolved. -/
lemma readConfigFile_eq_none_of_fail {T : Type}
    (manualPath locatorResult : Option String)
    (readParse : String → Option T) (hfail : ∀ p, readParse p = none) :
    readConfigFile manualPath locatorResult readParse = none := by
  unfold readConfigFile
  cases h : resolveReadPath manualPath locatorResult with
  | none => rfl
  | some p => exact hfail p

/-- C2 (amended): a failed read or parse of either config file is logged
and makes `readConfigFile` return `undefined` (`none`), but the capture
is not abandoned: whether the settings read fails or the keybindings
read fails, `getActiveProfile` still returns a snapshot whose failed
field is `undefined`, with the extension list and the other field —
failed or not — carried through unchanged. -/
theorem capture_returns_snapshot_with_missing_field {S K : Type}
    (manualS manualK locS locK : Option String)
    (readParseS : String → Option S) (readParseK : String → Option K)
    (exts : List String) (appName : String)
    (profileId profileName : Option String) :
    ((∀ p, readParseS p = none) →
      readConfigFile manualS locS readParseS = none ∧
      getActiveProfile manualS manualK locS locK readParseS readParseK exts
          appName profileId profileName =
        { settings := none, extensions := exts,
          keybindings := readConfigFile manualK locK readParseK,
          sourceAppName := appName, sourceProfileId := profileId,
          sourceProfileName := profileName }) ∧
    ((∀ p, readParseK p = none) →
      readConfigFile manualK locK readParseK = none ∧
      getActiveProfile manualS manualK locS locK readParseS readParseK exts
          appName profileId profileName =
        { settings := readConfigFile manualS locS readParseS,
          extensions := exts, keybindings := none,
          sourceAppName := appName, sourceProfileId := profileId,
          sourceProfileName := profileName }) := by
  constructor
  · intro hfail
    have hread := readConfigFile_eq_none_of_fail manualS locS readParseS hfail
    exact ⟨hread, by unfold getActiveProfile; rw [hread]⟩
  · intro hfail
    have hread := readConfigFile_eq_none_of_fail manualK locK readParseK hfail
    exact ⟨hread, by unfold getActiveProfile; rw [hread]⟩

/-- C2 amended witness: with the keybindings read failing while the
settings read succeeds, the keybindings pipeline yields `none` yet a
snapshot is returned with `keybindings = none` and the successfully read
settings in place. -/
theorem capture_returns_snapshot_with_missing_field_witness :
    readConfigFile (T := Unit) none (some "/cfg") (fun _ => none) = none ∧
    getActiveProfile (S := String) (K := Unit) none none (some "/cfg")
        (some "/cfg") (fun p => some p) (fun _ => none) ["x.y"] "Code" none
        none =
      { settings := some "/cfg", extensions := ["x.y"], keybindings := none,
        sourceAppName := "Code", sourceProfileId := none,
        sourceProfileName := none } := by
  have h := (capture_returns_snapshot_with_missing_field (S := String)
    (K := Unit) none none (some "/cfg") (some "/cfg") (fun p => some p)
    (fun _ => none) ["x.y"] "Code" none none).2 (fun _ => rfl)
  exact ⟨h.1, h.2.trans rfl⟩

/-- C10: with the manual override recorded (a truthy stored path `m`)
and no candidate path existing on disk (`ex` rejects every path), the
locator itself fails (`findConfigFile = none`), yet `readConfigFile`
resolves to the manual path — for any locator outcome — so capture reads
`m`; `updateLocalProfile`, which resolves via the locator only and never
consults the override, stops with the not-found error for
`settings.json` having written nothing. -/
theorem capture_manual_override_vs_apply_locator_only (pf : Platform)
    (env : Env) (appName : String) (profileId : Option String)
    (ex : String → Bool) (hex : ∀ q, ex q = false)
    {S : Type} (m : String) (hm : m ≠ "") (readParse : String → Option S)
    (writeOk : String → Bool) (all : List Ext)
    (excl remoteList : List String) (confirm : Bool)
    (answer : ConfirmAnswer) (fails : ActionKind → String → Bool)
    (ra : ReloadAnswer) :
    (∀ locatorResult : Option String,
      resolveReadPath (some m) locatorResult = some m) ∧
    findConfigFile pf env appName "settings.json" profileId ex = none ∧
    readConfigFile (some m)
      (findConfigFile pf env appName "settings.json" profileId ex)
      readParse = readParse m ∧
    updateLocalProfile pf env appName profileId ex writeOk all excl
        remoteList confirm answer fails ra =
      UpdateResult.notFound "settings.json" [] := by
  have hres : ∀ locatorResult : Option String,
      resolveReadPath (some m) locatorResult = some m := by
    intro locatorResult
    unfold resolveReadPath
    rw [if_pos]
    simp [truthy, hm]
  have hfind : findConfigFile pf env appName "settings.json" profileId ex =
      none := by
    apply List.find?_eq_none.mpr
    intro q _
    simp [hex q]
  refine ⟨hres, hfind, ?_, ?_⟩
  · unfold readConfigFile
    rw [hres]
  · unfold updateLocalProfile
    rw [hfind]

/-- C10 witness: concrete platform, environment, manual path `"/m.json"`
and an all-false existence probe: capture's settings read goes through
the manual path and succeeds, while `updateLocalProfile` returns the
settings-file not-found failure with an empty write list. -/
theorem capture_manual_override_vs_apply_locator_only_witness :
    readConfigFile (some "/m.json")
      (findConfigFile Platform.linuxOther
        { appdata := none, userprofile := none, home := some "/h",
          xdgConfigHome := none, homedir := "/h" } "Code" "settings.json"
        (some "p1") (fun _ => false))
      (fun p => some p) = some "/m.json" ∧
    updateLocalProfile Platform.linuxOther
        { appdata := none, userprofile := none, home := some "/h",
          xdgConfigHome := none, homedir := "/h" } "Code" (some "p1")
        (fun _ => false) (fun _ => true) [] [] [] true ConfirmAnswer.yes
        (fun _ _ => false) ReloadAnswer.later =
      UpdateResult.notFound "settings.json" [] := by
  have h := capture_manual_override_vs_apply_locator_only Platform.linuxOther
    { appdata := none, userprofile := none, home := some "/h",
      xdgConfigHome := none, homedir := "/h" } "Code" (some "p1")
    (fun _ => false) (fun _ => rfl) "/m.json" (by decide)
    (fun p => some p) (fun _ => true) [] [] [] true ConfirmAnswer.yes
    (fun _ _ => false) ReloadAnswer.later
  exact ⟨h.2.2.1, h.2.2.2⟩

end SyncEv
